import Mathlib

/-!
Shallow embedding of the `imy` image-conversion CLI (src/main.rs) and
verification of its specification claims.

The program is a thin front end over an external image codec library and a
directory-walk library.  Following the spec, those collaborators are modelled
only at their interface boundary: an abstract file-system/codec environment
`FS` supplies the answers the external calls would give (whether a path
exists, whether it is a file or directory, whether `ImageReader::open`
succeeds, the sniffed format, whether decode and save succeed, and the walk
entries).  Every program function is translated from the Rust source into a
function over `FS`; effectful calls additionally record an `Event` trace so
that claims about "no file I/O happens" or "writes exactly this line" are
expressible.  Rust `Result` errors become `Outcome.err`, Rust panics
(`todo!()`, `expect`) become `Outcome.panic`.
-/

set_option maxHeartbeats 1000000

namespace Imy

/-- The closed sixteen-member format enumeration used by the program
(the variants of `image::ImageFormat` that `format_to_string` handles). -/
inductive ImageFormat where
  | Png | Jpeg | Gif | WebP | Pnm | Tiff | Tga | Dds
  | Bmp | Ico | Hdr | OpenExr | Farbfeld | Avif | Qoi | Pcx
deriving DecidableEq

/-- Error values of the program, one constructor per `miette!` site in the
source. -/
inductive Err where
  | invalidLogLevel
  | pathNotFound (path : String)
  | unknownFormat (fmt : String)
  | openError (path : String)
  | decodeError (path : String)
  | saveError (fmt : String)
  | convertFileFailed
  | convertDirectoryFailed
  | accessError (path : String)
  | formatMismatch
  | writeError
deriving DecidableEq

/-- Result of running a program fragment: normal return, a `miette` error, or
a Rust panic (from `todo!()` or `.expect`), which unwinds past `map_err`. -/
inductive Outcome (α : Type) where
  | ok (a : α)
  | err (e : Err)
  | panic (msg : String)
deriving DecidableEq

/-- Observable file-system effects, recorded in order of occurrence. -/
inductive Event where
  | existsCheck (path : String)
  | isFileCheck (path : String)
  | isDirCheck (path : String)
  | openCall (path : String)
  | saveCall (path : String) (fmt : ImageFormat)
  | writeOut (s : String)
deriving DecidableEq

/-- Abstract environment answering the external file-system and codec-library
calls (spec section 6 specifies these collaborators at their interface
boundary only).  `walk` returns the items of `ignore::Walk`: `some path` for
an `Ok` entry, `none` for an `Err` item. -/
structure FS where
  pathExists : String → Bool
  isFile : String → Bool
  isDir : String → Bool
  openOk : String → Bool
  format : String → Option ImageFormat
  decodeOk : String → Bool
  saveOk : String → ImageFormat → Bool
  writeOk : Bool
  walk : String → List (Option String)

/-- Translation of `string_to_format` (src/main.rs lines 224-244). -/
def string_to_format (format : String) : Except Err ImageFormat :=
  match format with
  | "png" => .ok .Png
  | "jpg" | "jpeg" => .ok .Jpeg
  | "gif" => .ok .Gif
  | "webp" => .ok .WebP
  | "pnm" => .ok .Pnm
  | "tiff" => .ok .Tiff
  | "tga" => .ok .Tga
  | "dds" => .ok .Dds
  | "bmp" => .ok .Bmp
  | "ico" => .ok .Ico
  | "hdr" => .ok .Hdr
  | "openexr" => .ok .OpenExr
  | "farbfeld" => .ok .Farbfeld
  | "avif" => .ok .Avif
  | "qoi" => .ok .Qoi
  | "pcx" => .ok .Pcx
  | _ => .error (.unknownFormat format)

/-- Translation of `format_to_string` (src/main.rs lines 246-267).  The Rust
catch-all `_ => todo!()` arm is unreachable here because `ImageFormat` is
exactly the sixteen handled variants. -/
def format_to_string (format : ImageFormat) : String :=
  match format with
  | .Png => "png"
  | .Jpeg => "jpeg"
  | .Gif => "gif"
  | .WebP => "webp"
  | .Pnm => "pnm"
  | .Tiff => "tiff"
  | .Tga => "tga"
  | .Dds => "dds"
  | .Bmp => "bmp"
  | .Ico => "ico"
  | .Hdr => "hdr"
  | .OpenExr => "openexr"
  | .Farbfeld => "farbfeld"
  | .Avif => "avif"
  | .Qoi => "qoi"
  | .Pcx => "pcx"

/-- Model of Rust `str::to_lowercase`, character-wise (ASCII case mapping;
the format names at issue are all ASCII). -/
def rust_to_lowercase (s : String) : String :=
  String.mk (s.toList.map Char.toLower)

/-- Model of Rust `str::trim`: drop whitespace from both ends. -/
def rust_trim (s : String) : String :=
  String.mk (((s.toList.dropWhile Char.isWhitespace).reverse.dropWhile
    Char.isWhitespace).reverse)

/-- Translation of `dirty_string_to_format` (src/main.rs lines 219-222):
lowercase first, then trim, then look up. -/
def dirty_string_to_format (format : String) : Except Err ImageFormat :=
  string_to_format (rust_trim (rust_to_lowercase format))

/-- The accepted input strings of the format table, in source order. -/
def format_names : List String :=
  ["png", "jpg", "jpeg", "gif", "webp", "pnm", "tiff", "tga",
   "dds", "bmp", "ico", "hdr", "openexr", "farbfeld", "avif", "qoi", "pcx"]

/-- Modelled from the spec: the canonical lowercase form of an accepted
format string.  Every accepted string is its own canonical form except the
alias "jpg", whose canonical form is "jpeg". -/
def canonical_name (s : String) : String :=
  if s = "jpg" then "jpeg" else s

/-- Log verbosity levels, from `tracing::Level`. -/
inductive Level where
  | trace | debug | info | warn | error
deriving DecidableEq

/-- Translation of `string_to_log_level` (src/main.rs lines 208-217). -/
def string_to_log_level (level : String) : Except Err Level :=
  match level with
  | "trace" => .ok .trace
  | "debug" => .ok .debug
  | "info" => .ok .info
  | "warn" => .ok .warn
  | "error" => .ok .error
  | _ => .error .invalidLogLevel

/-- Classification of an existing path, from the `PathType` enum. -/
inductive PathType where
  | File | Directory
deriving DecidableEq

/-- Translation of `to_path_type` (src/main.rs lines 113-125): `is_file`
first, then `is_dir`, else `None` (logged as a warning only). -/
def to_path_type (fs : FS) (path : String) : Option PathType × List Event :=
  if fs.isFile path then (some .File, [.isFileCheck path])
  else if fs.isDir path then (some .Directory, [.isFileCheck path, .isDirCheck path])
  else (none, [.isFileCheck path, .isDirCheck path])

/-- Model of `ImageReader::open` followed by the reader's `format()` query:
the reader is represented by the optional sniffed format it would report.
Failure to open maps (via the `map_err` at every call site) to `openError`. -/
def imageReaderOpen (fs : FS) (path : String) : Outcome (Option ImageFormat) × List Event :=
  if fs.openOk path then (.ok (fs.format path), [.openCall path])
  else (.err (.openError path), [.openCall path])

/-- Translation of `info` (src/main.rs lines 88-106).  The caller-supplied
output sink (`context.stdout`) is observed through `writeOut` events; the
line written is exactly `<path> <format>\n` with the path as supplied. -/
def info (fs : FS) (path : String) : Outcome Unit × List Event :=
  match to_path_type fs path with
  | (some .File, ev) =>
    match imageReaderOpen fs path with
    | (.ok fmt, ev2) =>
      let fmtStr := (fmt.map format_to_string).getD "unknown"
      let line := path ++ " " ++ fmtStr ++ "\n"
      if fs.writeOk then (.ok (), ev ++ ev2 ++ [.writeOut line])
      else (.err .writeError, ev ++ ev2)
    | (.err e, ev2) => (.err e, ev ++ ev2)
    | (.panic m, ev2) => (.panic m, ev ++ ev2)
  | (some .Directory, ev) => (.panic "not yet implemented", ev)
  | (none, ev) => (.err (.accessError path), ev)

/-- Translation of `is_image_with_type` (src/main.rs lines 202-206):
`reader.format().map_or(false, |f| f == format)`. -/
def is_image_with_type (fs : FS) (path : String) (format : ImageFormat) :
    Outcome Bool × List Event :=
  match imageReaderOpen fs path with
  | (.ok fmt, ev) => (.ok ((fmt.map fun f => f == format).getD false), ev)
  | (.err e, ev) => (.err e, ev)
  | (.panic m, ev) => (.panic m, ev)

/-- Translation of `is` (src/main.rs lines 127-134): parse the expected
format first, then classify the path; the `Directory` and `None` arms are
`todo!()`. -/
def is (fs : FS) (path : String) (format : String) : Outcome Bool × List Event :=
  match dirty_string_to_format format with
  | .error e => (.err e, [])
  | .ok fmt =>
    match to_path_type fs path with
    | (some .File, ev) =>
      match is_image_with_type fs path fmt with
      | (r, ev2) => (r, ev ++ ev2)
    | (some .Directory, ev) => (.panic "not yet implemented", ev)
    | (none, ev) => (.panic "not yet implemented", ev)

/-- Last occurrence split: `splitAtLast c l = some (before, after)` when `l`
is `before ++ c :: after` with `c ∉ after`, and `none` when `c ∉ l`. -/
def splitAtLast (c : Char) : List Char → Option (List Char × List Char)
  | [] => none
  | x :: xs =>
    match splitAtLast c xs with
    | some (before, after) => some (x :: before, after)
    | none => if x = c then some ([], xs) else none

/-- Model of Rust `Path::with_extension` for Unix-style UTF-8 path strings:
split off the final component at the last separator, take its file stem
(portion before the last dot, except that a leading-dot-only name is its own
stem), and append a dot and the new extension. -/
def with_extension (path : String) (ext : String) : String :=
  let cs := path.toList
  let (parent, name) :=
    match splitAtLast '/' cs with
    | some (before, after) => (before ++ ['/'], after)
    | none => ([], cs)
  let stem :=
    match splitAtLast '.' name with
    | some ([], _) => name
    | some (before, _) => before
    | none => name
  String.mk (parent ++ stem ++ (if ext.isEmpty then [] else '.' :: ext.toList))

/-- The output path `convert_file` saves to (src/main.rs line 172):
`path.with_extension(format_to_string(target_format))`. -/
def convert_file_target (path : String) (target_format : ImageFormat) : String :=
  with_extension path (format_to_string target_format)

/-- Translation of `convert_file` (src/main.rs lines 159-182): open (error on
failure), `reader.format().expect("format must be known")` (panic when the
format is undetectable), decode, compute the target path, save. -/
def convert_file (fs : FS) (path : String) (target_format : ImageFormat) :
    Outcome Unit × List Event :=
  match imageReaderOpen fs path with
  | (.ok fmtOpt, ev) =>
    match fmtOpt with
    | none => (.panic "format must be known", ev)
    | some _ =>
      if fs.decodeOk path then
        let target_path := convert_file_target path target_format
        if fs.saveOk target_path target_format then
          (.ok (), ev ++ [.saveCall target_path target_format])
        else (.err (.saveError (format_to_string target_format)), ev)
      else (.err (.decodeError path), ev)
  | (.err e, ev) => (.err e, ev)
  | (.panic m, ev) => (.panic m, ev)

/-- Translation of `is_image_file` (src/main.rs lines 196-200): open, then
report whether a format was sniffed; no decode. -/
def is_image_file (fs : FS) (path : String) : Outcome Bool × List Event :=
  match imageReaderOpen fs path with
  | (.ok fmtOpt, ev) => (.ok fmtOpt.isSome, ev)
  | (.err e, ev) => (.err e, ev)
  | (.panic m, ev) => (.panic m, ev)

/-- The loop body of `convert_directory` (src/main.rs lines 184-194) over the
walk items: `Err` items are skipped by the `if let Ok(entry)` pattern; for an
`Ok` entry, `is_image_file(..).unwrap_or(false)` decides whether to convert,
and a conversion error propagates immediately via `?`, aborting the walk. -/
def convert_walk (fs : FS) (target_format : ImageFormat) :
    List (Option String) → Outcome Unit × List Event
  | [] => (.ok (), [])
  | none :: rest => convert_walk fs target_format rest
  | some entry :: rest =>
    match is_image_file fs entry with
    | (.ok true, ev) =>
      match convert_file fs entry target_format with
      | (.ok _, ev2) =>
        match convert_walk fs target_format rest with
        | (r, ev3) => (r, ev ++ ev2 ++ ev3)
      | (.err e, ev2) => (.err e, ev ++ ev2)
      | (.panic m, ev2) => (.panic m, ev ++ ev2)
    | (.ok false, ev) =>
      match convert_walk fs target_format rest with
      | (r, ev3) => (r, ev ++ ev3)
    | (.err _, ev) =>
      match convert_walk fs target_format rest with
      | (r, ev3) => (r, ev ++ ev3)
    | (.panic m, ev) => (.panic m, ev)

/-- Translation of `convert_directory` (src/main.rs lines 184-194). -/
def convert_directory (fs : FS) (path : String) (target_format : ImageFormat) :
    Outcome Unit × List Event :=
  convert_walk fs target_format (fs.walk path)

/-- Translation of `convert` (src/main.rs lines 136-157): parse the target
format, then classify by `is_file`/`is_dir` and dispatch; file and directory
errors are wrapped by `map_err` into fixed messages. -/
def convert (fs : FS) (path : String) (target_format : String) :
    Outcome Unit × List Event :=
  match dirty_string_to_format target_format with
  | .error e => (.err e, [])
  | .ok tf =>
    if fs.isFile path then
      match convert_file fs path tf with
      | (.ok _, ev) => (.ok (), Event.isFileCheck path :: ev)
      | (.err _, ev) => (.err .convertFileFailed, Event.isFileCheck path :: ev)
      | (.panic m, ev) => (.panic m, Event.isFileCheck path :: ev)
    else if fs.isDir path then
      match convert_directory fs path tf with
      | (.ok _, ev) => (.ok (), Event.isFileCheck path :: Event.isDirCheck path :: ev)
      | (.err _, ev) =>
        (.err .convertDirectoryFailed, Event.isFileCheck path :: Event.isDirCheck path :: ev)
      | (.panic m, ev) => (.panic m, Event.isFileCheck path :: Event.isDirCheck path :: ev)
    else (.err (.accessError path), [Event.isFileCheck path, Event.isDirCheck path])

/-- The CLI subcommands, from the `Commands` enum. -/
inductive Commands where
  | Convert (target_format : String)
  | Is (format : String)
  | Info
deriving DecidableEq

/-- The parsed CLI arguments, from the `Args` struct. -/
structure Args where
  path : String
  log_level : Option String
  command : Option Commands

/-- Translation of `run` (src/main.rs lines 54-86): resolve the log level
(failing with `invalidLogLevel` before anything else), check `path.exists()`
(failing with `pathNotFound`), then dispatch on the subcommand; an absent
subcommand behaves like `Info`, and an `Is` mismatch becomes a
`formatMismatch` error.  Installing the tracing subscriber is modelled as a
no-op since the process-global subscriber slot is outside the program. -/
def run (fs : FS) (args : Args) : Outcome Unit × List Event :=
  let levelRes : Except Err (Option Level) :=
    match args.log_level with
    | some l => (string_to_log_level l).map some
    | none => .ok none
  match levelRes with
  | .error e => (.err e, [])
  | .ok _ =>
    if fs.pathExists args.path then
      match args.command with
      | some (.Convert tf) =>
        match convert fs args.path tf with
        | (.ok _, ev) => (.ok (), Event.existsCheck args.path :: ev)
        | (.err e, ev) => (.err e, Event.existsCheck args.path :: ev)
        | (.panic m, ev) => (.panic m, Event.existsCheck args.path :: ev)
      | some (.Is f) =>
        match is fs args.path f with
        | (.ok true, ev) => (.ok (), Event.existsCheck args.path :: ev)
        | (.ok false, ev) => (.err .formatMismatch, Event.existsCheck args.path :: ev)
        | (.err e, ev) => (.err e, Event.existsCheck args.path :: ev)
        | (.panic m, ev) => (.panic m, Event.existsCheck args.path :: ev)
      | some .Info | none =>
        match info fs args.path with
        | (.ok _, ev) => (.ok (), Event.existsCheck args.path :: ev)
        | (.err e, ev) => (.err e, Event.existsCheck args.path :: ev)
        | (.panic m, ev) => (.panic m, Event.existsCheck args.path :: ev)
    else (.err (.pathNotFound args.path), [Event.existsCheck args.path])

/-- Concrete test environment used by witnesses and counterexamples:
`img.png` and `img.jpg` are readable images of the matching format,
`raw.bin` is a readable file with no detectable format, `bad.png` sniffs as
PNG but fails to decode, `locked.png` exists but cannot be opened, `dir` and
`dir2` are directories, and `ghost` does not exist. -/
def wfs : FS where
  pathExists := fun p => !(p == "ghost")
  isFile := fun p =>
    p == "img.png" || p == "img.jpg" || p == "raw.bin" ||
    p == "bad.png" || p == "locked.png"
  isDir := fun p => p == "dir" || p == "dir2"
  openOk := fun p => !(p == "locked.png")
  format := fun p =>
    if p == "img.png" then some .Png
    else if p == "img.jpg" then some .Jpeg
    else if p == "bad.png" then some .Png
    else none
  decodeOk := fun p => !(p == "bad.png")
  saveOk := fun _ _ => true
  writeOk := true
  walk := fun p =>
    if p == "dir" then [some "img.jpg", none, some "raw.bin"]
    else if p == "dir2" then [some "img.jpg", some "bad.png", some "img.png"]
    else []

/-- Detection predicate of the directory walk: an entry passes detection
exactly when `is_image_file` returns `Ok(true)`, i.e. the open succeeds and
some format is sniffed (no decode involved). -/
def detected (fs : FS) (path : String) : Bool :=
  fs.openOk path && (fs.format path).isSome

end Imy

deriving instance DecidableEq for Except

namespace Imy

theorem string_to_format_canonical (t : String) (f : ImageFormat)
    (h : string_to_format t = .ok f) : format_to_string f = canonical_name t := by
  unfold string_to_format at h
  split at h <;>
    first
      | (injection h with h; subst h; decide)
      | exact Except.noConfusion h

theorem string_to_format_not_mem (t : String) (h : t ∉ format_names) :
    string_to_format t = .error (.unknownFormat t) := by
  unfold string_to_format
  split <;> simp_all [format_names]

/-- C1: for every input string accepted by the format table (after
lowercasing and trimming), rendering the parsed format back with
`format_to_string` yields the canonical lowercase form of the input; in
particular both "jpg" and "jpeg" parse to `Jpeg`, which renders as "jpeg". -/
theorem c1_format_name_round_trip :
    (∀ s f, dirty_string_to_format s = .ok f →
        format_to_string f = canonical_name (rust_trim (rust_to_lowercase s))) ∧
    dirty_string_to_format "jpg" = .ok .Jpeg ∧
    dirty_string_to_format "jpeg" = .ok .Jpeg ∧
    format_to_string .Jpeg = "jpeg" := by
  refine ⟨fun s f h => string_to_format_canonical _ f h, rfl, rfl, rfl⟩

/-- Witness for C1 at the concrete accepted input " JPG ", whose lowercased
and trimmed form is the alias "jpg" with canonical form "jpeg". -/
theorem c1_format_name_round_trip_witness :
    format_to_string ImageFormat.Jpeg = canonical_name (rust_trim (rust_to_lowercase " JPG ")) :=
  c1_format_name_round_trip.1 " JPG " ImageFormat.Jpeg rfl

/-- C2: every string whose lowercased, trimmed form lies outside the closed
format set fails to parse with `unknownFormat`, and in both `convert` and
`is` this failure happens before any file-system event at all (the event
trace is empty, so in particular no file is opened). -/
theorem c2_unknown_format_before_io :
    ∀ s, rust_trim (rust_to_lowercase s) ∉ format_names →
      dirty_string_to_format s =
          .error (.unknownFormat (rust_trim (rust_to_lowercase s))) ∧
      ∀ (fs : FS) (path : String),
        convert fs path s =
            (.err (.unknownFormat (rust_trim (rust_to_lowercase s))), []) ∧
        is fs path s =
            (.err (.unknownFormat (rust_trim (rust_to_lowercase s))), []) := by
  intro s h
  have hd : dirty_string_to_format s =
      .error (.unknownFormat (rust_trim (rust_to_lowercase s))) :=
    string_to_format_not_mem _ h
  refine ⟨hd, fun fs path => ⟨?_, ?_⟩⟩
  · unfold convert
    rw [hd]
  · unfold is
    rw [hd]

/-- Witness for C2 at the concrete rejected input "svg". -/
theorem c2_unknown_format_before_io_witness :
    dirty_string_to_format "svg" = .error (.unknownFormat "svg") ∧
    convert wfs "img.png" "svg" = (.err (.unknownFormat "svg"), []) ∧
    is wfs "img.png" "svg" = (.err (.unknownFormat "svg"), []) := by
  have h := c2_unknown_format_before_io "svg" (by decide)
  exact ⟨h.1, (h.2 wfs "img.png").1, (h.2 wfs "img.png").2⟩

/-- C7: whenever the log level is absent or valid and the given path does not
exist, `run` fails with `pathNotFound` for every command (convert, is, info,
or none), and the whole event trace is the single existence check: the path
is checked exactly once, and no open and no file/directory classification
happens before the failure. -/
theorem c7_path_not_found_first :
    ∀ (fs : FS) (args : Args),
      (∀ l, args.log_level = some l → ∃ lv, string_to_log_level l = .ok lv) →
      fs.pathExists args.path = false →
      run fs args = (.err (.pathNotFound args.path), [.existsCheck args.path]) := by
  intro fs args hlog hex
  unfold run
  rcases hll : args.log_level with _ | l
  · simp [hll, hex]
  · obtain ⟨lv, hlv⟩ := hlog l hll
    simp [hll, hlv, hex, Except.map]

/-- Witness for C7: a convert command on the nonexistent path "ghost" with a
valid log level. -/
theorem c7_path_not_found_first_witness :
    run wfs ⟨"ghost", some "debug", some (.Convert "png")⟩ =
      (.err (.pathNotFound "ghost"), [.existsCheck "ghost"]) := by
  refine c7_path_not_found_first wfs ⟨"ghost", some "debug", some (.Convert "png")⟩ ?_ rfl
  intro l h
  injection h with h
  subst h
  exact ⟨.debug, rfl⟩

/-- C5: `info` on a readable file writes exactly the one line
`<path> <name>\n` to the output sink, with the path exactly as supplied and
the name the canonical format name, or the literal "unknown" when the format
is undetectable — and in every case it succeeds. -/
theorem c5_info_single_line :
    ∀ (fs : FS) (path : String),
      fs.isFile path = true → fs.openOk path = true → fs.writeOk = true →
      info fs path =
        (.ok (), [.isFileCheck path, .openCall path,
          .writeOut (path ++ " " ++
            ((fs.format path).map format_to_string).getD "unknown" ++ "\n")]) := by
  intro fs path hf ho hw
  unfold info to_path_type imageReaderOpen
  simp [hf, ho, hw]

/-- Witness for C5 at the file "raw.bin", whose format is undetectable: info
succeeds and writes the literal word "unknown" in place of the name. -/
theorem c5_info_single_line_witness :
    info wfs "raw.bin" =
      (.ok (), [.isFileCheck "raw.bin", .openCall "raw.bin",
        .writeOut "raw.bin unknown\n"]) := by
  have h := c5_info_single_line wfs "raw.bin" rfl rfl rfl
  exact h

/-- C3 counterexample: on a readable file whose format is undetectable
(`raw.bin`: open succeeds, sniffed format is `none`), single-file conversion
does not fail with `openError` as the claim states — it panics on the
`expect("format must be known")`, a fatal condition. -/
theorem c3_open_error_counterexample :
    wfs.openOk "raw.bin" = true ∧ wfs.format "raw.bin" = none ∧
    (convert_file wfs "raw.bin" ImageFormat.Png).1 = .panic "format must be known" ∧
    (convert_file wfs "raw.bin" ImageFormat.Png).1 ≠ .err (.openError "raw.bin") := by
  decide

/-- C3 amended: in single-file conversion an unreadable file fails with the
ordinary `openError`, but an undetectable format is treated as a fatal
invariant violation: the `expect` panics instead of returning an error. -/
theorem c3_open_error_amended :
    ∀ (fs : FS) (path : String) (tf : ImageFormat),
      (fs.openOk path = false →
        convert_file fs path tf = (.err (.openError path), [.openCall path])) ∧
      (fs.openOk path = true → fs.format path = none →
        convert_file fs path tf = (.panic "format must be known", [.openCall path])) := by
  intro fs path tf
  constructor
  · intro h
    simp [convert_file, imageReaderOpen, h]
  · intro h h2
    simp [convert_file, imageReaderOpen, h, h2]

/-- Witness for the amended C3: the unreadable file `locked.png` yields
`openError`, and the undetectable `raw.bin` panics. -/
theorem c3_open_error_amended_witness :
    convert_file wfs "locked.png" ImageFormat.Png =
        (.err (.openError "locked.png"), [.openCall "locked.png"]) ∧
    convert_file wfs "raw.bin" ImageFormat.Png =
        (.panic "format must be known", [.openCall "raw.bin"]) :=
  ⟨(c3_open_error_amended wfs "locked.png" ImageFormat.Png).1 rfl,
   (c3_open_error_amended wfs "raw.bin" ImageFormat.Png).2 rfl rfl⟩

/-- C10: with a well-formed expected format, `is` on a path classified as a
directory, or as neither file nor directory, reaches the unimplemented
`todo!()` branch and panics; only on a regular file is its result an
ordinary `ok`/`err` value (never a panic). -/
theorem c10_is_panics_off_files :
    ∀ (fs : FS) (path fstr : String) (fmt : ImageFormat),
      dirty_string_to_format fstr = .ok fmt →
      (((to_path_type fs path).1 = some .Directory ∨ (to_path_type fs path).1 = none) →
        (is fs path fstr).1 = .panic "not yet implemented") ∧
      ((to_path_type fs path).1 = some .File →
        ∀ m, (is fs path fstr).1 ≠ .panic m) := by
  intro fs path fstr fmt hfmt
  cases hf : fs.isFile path <;> cases hd : fs.isDir path <;>
    cases ho : fs.openOk path <;>
      constructor <;>
        simp_all [is, to_path_type, is_image_with_type, imageReaderOpen, hfmt]

/-- Witness for C10: `is` with the valid expected format "png" on the
directory path "dir" panics on the unimplemented branch. -/
theorem c10_is_panics_off_files_witness :
    (is wfs "dir" "png").1 = .panic "not yet implemented" :=
  (c10_is_panics_off_files wfs "dir" "png" ImageFormat.Png rfl).1 (Or.inl rfl)

/-- C6: the `is` operation depends only on path classification, open success
and the sniffed format — never on decode (or any other) capability of the
environment, so it never decodes pixel data — and at the dispatcher level a
sniffed-format match yields success while a mismatch is surfaced as the
`formatMismatch` error, for every file and well-formed expected format. -/
theorem c6_is_sniff_only :
    (∀ (fs fs' : FS) (path fstr : String),
        fs.isFile = fs'.isFile → fs.isDir = fs'.isDir →
        fs.openOk = fs'.openOk → fs.format = fs'.format →
        is fs path fstr = is fs' path fstr) ∧
    (∀ (fs : FS) (path fstr : String) (fmt : ImageFormat),
        dirty_string_to_format fstr = .ok fmt →
        fs.pathExists path = true → fs.isFile path = true → fs.openOk path = true →
        (run fs ⟨path, none, some (.Is fstr)⟩).1 =
          if ((fs.format path).map fun f => f == fmt).getD false then .ok ()
          else .err .formatMismatch) := by
  constructor
  · intro fs fs' path fstr h1 h2 h3 h4
    unfold is to_path_type is_image_with_type imageReaderOpen
    rw [h1, h2, h3, h4]
  · intro fs path fstr fmt hfmt hex hf ho
    unfold run is to_path_type is_image_with_type imageReaderOpen
    cases hb : ((fs.format path).map fun f => f == fmt).getD false <;>
      simp [hex, hf, ho, hfmt, hb]

/-- Witness for C6: checking the JPEG file "img.jpg" against expected format
"png" is a mismatch surfaced as the `formatMismatch` error. -/
theorem c6_is_sniff_only_witness :
    (run wfs ⟨"img.jpg", none, some (.Is "png")⟩).1 = .err .formatMismatch := by
  have h := c6_is_sniff_only.2 wfs "img.jpg" "png" ImageFormat.Png rfl rfl rfl rfl
  exact h

theorem is_image_file_eq (fs : FS) (e : String) :
    is_image_file fs e =
      (if fs.openOk e then .ok (fs.format e).isSome else .err (.openError e),
       [.openCall e]) := by
  unfold is_image_file imageReaderOpen
  cases h : fs.openOk e <;> simp [h]

theorem convert_walk_ok (fs : FS) (tf : ImageFormat) :
    ∀ entries : List (Option String),
      (∀ e, some e ∈ entries → detected fs e = true →
        (convert_file fs e tf).1 = .ok ()) →
      (convert_walk fs tf entries).1 = .ok () ∧
      ∀ e, some e ∈ entries → Event.openCall e ∈ (convert_walk fs tf entries).2 := by
  intro entries
  induction entries with
  | nil =>
    intro _
    refine ⟨rfl, ?_⟩
    intro e he
    simp at he
  | cons x rest ih =>
    intro h
    have hrest : ∀ e, some e ∈ rest → detected fs e = true →
        (convert_file fs e tf).1 = .ok () :=
      fun e he hd => h e (List.mem_cons_of_mem _ he) hd
    obtain ⟨ih1, ih2⟩ := ih hrest
    rcases hcw : convert_walk fs tf rest with ⟨r, ev3⟩
    rw [hcw] at ih1 ih2
    simp only at ih1 ih2
    subst ih1
    cases x with
    | none =>
      refine ⟨by simp [convert_walk, hcw], ?_⟩
      intro e he
      rcases List.mem_cons.mp he with h1 | h1
      · exact absurd h1 (by simp)
      · simpa [convert_walk, hcw] using ih2 e h1
    | some entry =>
      cases hdet : detected fs entry with
      | true =>
        have hopen : fs.openOk entry = true := by
          have := hdet
          unfold detected at this
          exact (Bool.and_eq_true_iff.mp this).1
        have hsome : (fs.format entry).isSome = true := by
          have := hdet
          unfold detected at this
          exact (Bool.and_eq_true_iff.mp this).2
        have hcf : (convert_file fs entry tf).1 = .ok () :=
          h entry (by simp) hdet
        rcases hcf2 : convert_file fs entry tf with ⟨r2, ev2⟩
        rw [hcf2] at hcf
        simp only at hcf
        subst hcf
        refine ⟨?_, ?_⟩
        · simp [convert_walk, is_image_file_eq, hopen, hsome, hcf2, hcw]
        · intro e he
          rcases List.mem_cons.mp he with h1 | h1
          · have : e = entry := by simpa using h1
            subst this
            simp [convert_walk, is_image_file_eq, hopen, hsome, hcf2, hcw]
          · have := ih2 e h1
            simp [convert_walk, is_image_file_eq, hopen, hsome, hcf2, hcw, this]
      | false =>
        have hskip :
            convert_walk fs tf (some entry :: rest) =
              (Outcome.ok (), Event.openCall entry :: ev3) := by
          unfold detected at hdet
          rcases hopen : fs.openOk entry with _ | _
          · simp [convert_walk, is_image_file_eq, hopen, hcw]
          · have hfmt : (fs.format entry).isSome = false := by
              rw [hopen] at hdet
              simpa using hdet
            simp [convert_walk, is_image_file_eq, hopen, hfmt, hcw]
        refine ⟨by simp [hskip], ?_⟩
        intro e he
        rcases List.mem_cons.mp he with h1 | h1
        · have : e = entry := by simpa using h1
          subst this
          simp [hskip]
        · have := ih2 e h1
          simp [hskip, this]

theorem convert_walk_abort (fs : FS) (tf : ImageFormat) (e : String) (er : Err)
    (post : List (Option String)) :
    ∀ pre : List (Option String),
      (∀ x, some x ∈ pre → detected fs x = true →
        (convert_file fs x tf).1 = .ok ()) →
      detected fs e = true →
      (convert_file fs e tf).1 = .err er →
      (convert_walk fs tf (pre ++ some e :: post)).1 = .err er ∧
      (convert_walk fs tf (pre ++ some e :: post)).2 =
        (convert_walk fs tf (pre ++ [some e])).2 := by
  intro pre
  induction pre with
  | nil =>
    intro _ hdet herr
    have hopen : fs.openOk e = true := by
      unfold detected at hdet
      exact (Bool.and_eq_true_iff.mp hdet).1
    have hsome : (fs.format e).isSome = true := by
      unfold detected at hdet
      exact (Bool.and_eq_true_iff.mp hdet).2
    rcases hcf : convert_file fs e tf with ⟨r2, ev2⟩
    rw [hcf] at herr
    simp only at herr
    subst herr
    constructor <;>
      simp [convert_walk, is_image_file_eq, hopen, hsome, hcf]
  | cons x pre ih =>
    intro hpre hdet herr
    have hpre' : ∀ y, some y ∈ pre → detected fs y = true →
        (convert_file fs y tf).1 = .ok () :=
      fun y hy hd => hpre y (List.mem_cons_of_mem _ hy) hd
    obtain ⟨ih1, ih2⟩ := ih hpre' hdet herr
    rcases hcw : convert_walk fs tf (pre ++ some e :: post) with ⟨r, ev3⟩
    rcases hcw' : convert_walk fs tf (pre ++ [some e]) with ⟨r', ev3'⟩
    rw [hcw] at ih1 ih2
    rw [hcw'] at ih2
    simp only at ih1 ih2
    subst ih1
    subst ih2
    cases x with
    | none =>
      constructor <;> simp [convert_walk, hcw, hcw']
    | some entry =>
      cases hdet2 : detected fs entry with
      | true =>
        have hopen : fs.openOk entry = true := by
          unfold detected at hdet2
          exact (Bool.and_eq_true_iff.mp hdet2).1
        have hsome : (fs.format entry).isSome = true := by
          unfold detected at hdet2
          exact (Bool.and_eq_true_iff.mp hdet2).2
        have hcf : (convert_file fs entry tf).1 = .ok () :=
          hpre entry (by simp) hdet2
        rcases hcf2 : convert_file fs entry tf with ⟨r2, ev2⟩
        rw [hcf2] at hcf
        simp only at hcf
        subst hcf
        constructor <;>
          simp [convert_walk, is_image_file_eq, hopen, hsome, hcf2, hcw, hcw']
      | false =>
        unfold detected at hdet2
        rcases hopen : fs.openOk entry with _ | _
        · constructor <;>
            simp [convert_walk, is_image_file_eq, hopen, hcw, hcw']
        · have hfmt : (fs.format entry).isSome = false := by
            rw [hopen] at hdet2
            simpa using hdet2
          constructor <;>
            simp [convert_walk, is_image_file_eq, hopen, hfmt, hcw, hcw']

/-- C4: directory conversion over the walk items: (1) when every `Ok` entry
that passes detection converts successfully, the whole operation succeeds —
entries failing detection are silently skipped — and every `Ok` entry of the
subtree is visited (its open call appears in the trace); (2) the first
conversion failure of an entry that passed detection aborts the entire
operation with that error, and nothing after the failing entry is visited
(the trace stops there). -/
theorem c4_directory_walk :
    ∀ (fs : FS) (path : String) (tf : ImageFormat),
      ((∀ e, some e ∈ fs.walk path → detected fs e = true →
          (convert_file fs e tf).1 = .ok ()) →
        (convert_directory fs path tf).1 = .ok () ∧
        ∀ e, some e ∈ fs.walk path →
          Event.openCall e ∈ (convert_directory fs path tf).2) ∧
      (∀ (pre post : List (Option String)) (e : String) (er : Err),
        fs.walk path = pre ++ some e :: post →
        (∀ x, some x ∈ pre → detected fs x = true →
          (convert_file fs x tf).1 = .ok ()) →
        detected fs e = true →
        (convert_file fs e tf).1 = .err er →
        (convert_directory fs path tf).1 = .err er ∧
        (convert_directory fs path tf).2 =
          (convert_walk fs tf (pre ++ [some e])).2) := by
  intro fs path tf
  constructor
  · intro h
    exact convert_walk_ok fs tf (fs.walk path) h
  · intro pre post e er hw hpre hdet herr
    unfold convert_directory
    rw [hw]
    exact convert_walk_abort fs tf e er post pre hpre hdet herr

/-- Witness for C4 on concrete directories: converting `dir` (a JPEG image,
one unreadable walk item, and a non-image file) succeeds while visiting both
entries, and converting `dir2` aborts with the decode error of its failing
second entry. -/
theorem c4_directory_walk_witness :
    (convert_directory wfs "dir" ImageFormat.Png).1 = .ok () ∧
    Event.openCall "raw.bin" ∈ (convert_directory wfs "dir" ImageFormat.Png).2 ∧
    (convert_directory wfs "dir2" ImageFormat.Png).1 = .err (.decodeError "bad.png") := by
  have hyp1 : ∀ e, some e ∈ wfs.walk "dir" → detected wfs e = true →
      (convert_file wfs e ImageFormat.Png).1 = .ok () := by
    intro e he hd
    have he' : some e ∈ [some "img.jpg", none, some "raw.bin"] := he
    have he'' : e = "img.jpg" ∨ e = "raw.bin" := by simpa using he'
    rcases he'' with h | h <;> subst h
    · decide
    · exact absurd hd (by decide)
  have h1 := (c4_directory_walk wfs "dir" ImageFormat.Png).1 hyp1
  have hyp2 : ∀ x, some x ∈ [some "img.jpg"] → detected wfs x = true →
      (convert_file wfs x ImageFormat.Png).1 = .ok () := by
    intro x hx hd
    have hx' : x = "img.jpg" := by simpa using hx
    subst hx'
    decide
  have h2 := (c4_directory_walk wfs "dir2" ImageFormat.Png).2
    [some "img.jpg"] [some "img.png"] "bad.png" (.decodeError "bad.png")
    rfl hyp2 (by decide) (by decide)
  exact ⟨h1.1, h1.2 "raw.bin" (by decide), h2.1⟩

theorem toList_append (s t : String) : (s ++ t).toList = s.toList ++ t.toList := rfl

theorem splitAtLast_of_not_mem (c : Char) :
    ∀ l : List Char, c ∉ l → splitAtLast c l = none := by
  intro l
  induction l with
  | nil => intro _; rfl
  | cons x xs ih =>
    intro h
    have hx : ¬(x = c) := fun he => h (by simp [he])
    have hxs : c ∉ xs := fun he => h (List.mem_cons_of_mem _ he)
    unfold splitAtLast
    rw [ih hxs]
    simp [hx]

theorem splitAtLast_append (c : Char) (xs ys : List Char) (h : c ∉ ys) :
    splitAtLast c (xs ++ c :: ys) = some (xs, ys) := by
  induction xs with
  | nil =>
    rw [List.nil_append]
    simp [splitAtLast, splitAtLast_of_not_mem c ys h]
  | cons x xs ih =>
    rw [List.cons_append]
    simp [splitAtLast, ih]

theorem format_to_string_not_empty (tf : ImageFormat) :
    (format_to_string tf).isEmpty = false := by
  cases tf <;> rfl

/-- C8: single-file conversion computes its output path by replacing the
input path's extension with the canonical lowercase name of the target
format, for every target format: on a path `dir/stem.ext` the result is
`dir/stem.<name>`, on a separator-free `stem.ext` it is `stem.<name>`, and on
an extensionless `stem` the canonical extension is appended. -/
theorem c8_output_path :
    ∀ (dir stem ext : String) (tf : ImageFormat),
      stem.toList ≠ [] → '/' ∉ stem.toList → '/' ∉ ext.toList → '.' ∉ ext.toList →
      convert_file_target (dir ++ "/" ++ stem ++ "." ++ ext) tf
          = dir ++ "/" ++ stem ++ "." ++ format_to_string tf ∧
      convert_file_target (stem ++ "." ++ ext) tf
          = stem ++ "." ++ format_to_string tf ∧
      ('.' ∉ stem.toList →
        convert_file_target stem tf = stem ++ "." ++ format_to_string tf) := by
  intro dir stem ext tf hstem hs he hd
  have hne : (format_to_string tf).isEmpty = false := format_to_string_not_empty tf
  rcases hst0 : stem.toList with _ | ⟨s0, srest⟩
  · exact absurd hst0 hstem
  have hst : stem.data = s0 :: srest := hst0
  have hs' : '/' ∉ s0 :: srest := by
    rw [String.toList, hst] at hs
    exact hs
  have hside1 : '/' ∉ s0 :: (srest ++ '.' :: ext.data) := by
    intro hmem
    rcases List.mem_cons.mp hmem with h1 | h1
    · exact hs' (List.mem_cons.mpr (Or.inl h1))
    · rcases List.mem_append.mp h1 with h2 | h2
      · exact hs' (List.mem_cons_of_mem _ h2)
      · rcases List.mem_cons.mp h2 with h3 | h3
        · exact absurd h3 (by decide)
        · exact he h3
  have hB : splitAtLast '.' (s0 :: (srest ++ '.' :: ext.data))
      = some (s0 :: srest, ext.data) := by
    have h := splitAtLast_append '.' (s0 :: srest) ext.data hd
    simpa using h
  refine ⟨?_, ?_, ?_⟩
  · have f1 : (dir ++ "/" ++ stem ++ "." ++ ext).toList
        = dir.data ++ '/' :: (s0 :: (srest ++ '.' :: ext.data)) := by
      simp [String.toList, hst]
    have hA : splitAtLast '/' (dir.data ++ '/' :: (s0 :: (srest ++ '.' :: ext.data)))
        = some (dir.data, s0 :: (srest ++ '.' :: ext.data)) :=
      splitAtLast_append '/' _ _ hside1
    unfold convert_file_target with_extension
    simp only [f1, hA, hB, hne]
    apply String.ext
    simp [String.toList, hst]
  · have f1b : (stem ++ "." ++ ext).toList = s0 :: (srest ++ '.' :: ext.data) := by
      simp [String.toList, hst]
    have hA2 : splitAtLast '/' (s0 :: (srest ++ '.' :: ext.data)) = none :=
      splitAtLast_of_not_mem '/' _ hside1
    unfold convert_file_target with_extension
    simp only [f1b, hA2, hB, hne]
    apply String.ext
    simp [String.toList, hst]
  · intro hdot
    have hdot' : '.' ∉ s0 :: srest := hdot
    have f1c : stem.toList = s0 :: srest := hst
    have hA3 : splitAtLast '/' (s0 :: srest) = none := splitAtLast_of_not_mem '/' _ hs'
    have hB3 : splitAtLast '.' (s0 :: srest) = none := splitAtLast_of_not_mem '.' _ hdot'
    unfold convert_file_target with_extension
    simp only [f1c, hA3, hB3, hne]
    apply String.ext
    simp [String.toList, hst]

/-- Witness for C8 at the spec's example: target PNG on input "a/b.jpg"
yields "a/b.png". -/
theorem c8_output_path_witness :
    convert_file_target "a/b.jpg" ImageFormat.Png = "a/b.png" := by
  have h := (c8_output_path "a" "b" "jpg" ImageFormat.Png
    (by decide) (by decide) (by decide) (by decide)).1
  exact h

/-- C9: reverse round-trip of the format table: the canonical rendered name
of each of the sixteen formats is itself accepted by `string_to_format` and
parses back to exactly that format. -/
theorem c9_reverse_round_trip :
    ∀ f : ImageFormat, string_to_format (format_to_string f) = .ok f := by
  intro f
  cases f <;> rfl

end Imy
